import Mathlib

/-!
Verification of the blurt notification daemon (src/daemon.rs, src/database.rs)
against its natural-language specification.

Shallow embedding notes:
* A plist value (the `plist::Value` enum of the plist crate) is modelled by
  the inductive `Value` below.  The source only ever inspects values through
  `as_string`, `as_real` and the `Dictionary` pattern; every other
  constructor falls into catch-all `_` arms.  The constructors `Date` and
  `Uid` of the crate are omitted from the model: they would take exactly the
  same catch-all branches as `boolean`/`data`/`array`, so their omission
  changes no branch of the embedded code.
* A row of the SQLite `record` table is modelled as a pair
  `(ROWID, parse result of its data blob)`: the binary-plist byte parser
  `plist::from_bytes` is an external library, so a blob is represented by
  what it parses to (`some v`) or by `none` when parsing fails.
* The table itself is a list of rows; `Store.WF` states the ROWIDs are
  strictly increasing, which models ROWID uniqueness plus the
  `ORDER BY ROWID ASC` order in which the SQL queries of the daemon return
  rows.
* Rust `f64` values stored in plist `Real` fields are modelled as rationals
  (every finite double is a rational, and the source performs no arithmetic
  on them, only the `as i64` cast, which is truncation toward zero
  saturating at the i64 bounds — `f64_as_i64` below).
-/

namespace Blurt

/-- Model of `plist::Value` (the constructors the source can observe). -/
inductive Value where
  | string (s : String)
  | real (r : ℚ)
  | integer (n : Int)
  | boolean (b : Bool)
  | data (bytes : List Nat)
  | array (xs : List Value)
  | dictionary (d : List (String × Value))

/-- Model of `plist::Value::as_string`: `Some` exactly on the `String` constructor. -/
def Value.as_string : Value → Option String
  | .string s => some s
  | _ => none

/-- Model of `plist::Value::as_real`: `Some` exactly on the `Real` constructor
(in particular it does not coerce `Integer` values). -/
def Value.as_real : Value → Option ℚ
  | .real r => some r
  | _ => none

/-- Whether a value is a dictionary (the shape required of a decodable payload). -/
def Value.is_dictionary : Value → Bool
  | .dictionary _ => true
  | _ => false

/-- Model of `plist::Dictionary::get`: first binding of the key (keys are
unique in a plist dictionary). -/
def lookupDict (d : List (String × Value)) (k : String) : Option Value :=
  match d with
  | [] => none
  | (k', v) :: rest => if k' = k then some v else lookupDict rest k

/-- Truncation of a rational toward zero (`Int.div` is T-division). -/
def rat_trunc (q : ℚ) : Int := q.num.tdiv (q.den : Int)

/-- Model of the Rust cast `f64 as i64`: truncation toward zero, saturating
at the bounds of a signed 64-bit integer. -/
def f64_as_i64 (q : ℚ) : Int :=
  max (-(2 ^ 63)) (min (2 ^ 63 - 1) (rat_trunc q))

/-- The `Notification` struct of src/database.rs. -/
structure Notification where
  id : Int
  title : String
  subtitle : Option String
  body : String
  date : Int
  bundle_id : Option String
deriving DecidableEq, Repr

/-- Embedding of `parse_notification_from_plist` (src/daemon.rs lines 195-254).
The source initialises `title`/`body` to `""`, `subtitle`/`bundle_id` to
`None` and `date` to `0`, then overwrites each field when the corresponding
key is present with the right type; the `match` on the `"req"` entry mirrors
the nested `if let` chain. -/
def parse_notification_from_plist (plist_value : Value) (rowid : Int) : Option Notification :=
  match plist_value with
  | .dictionary dict =>
    let bundle_id : Option String := (lookupDict dict "app").bind Value.as_string
    let date : Int :=
      match (lookupDict dict "date").bind Value.as_real with
      | some date_num => f64_as_i64 date_num
      | none => 0
    match lookupDict dict "req" with
    | some (.dictionary req_dict) =>
      some { id := rowid
             title := ((lookupDict req_dict "titl").bind Value.as_string).getD ""
             subtitle := (lookupDict req_dict "subt").bind Value.as_string
             body := ((lookupDict req_dict "body").bind Value.as_string).getD ""
             date := date
             bundle_id := bundle_id }
    | _ =>
      some { id := rowid, title := "", subtitle := none, body := ""
             date := date, bundle_id := bundle_id }
  | _ => none

/-- The decode step applied to one row's data blob: `plist::from_bytes`
followed by `parse_notification_from_plist` (src/daemon.rs lines 149-152).
The blob is represented by its parse result (see module comment): `none`
models bytes that fail to parse as a binary plist. -/
def plist_decode (parsed : Option Value) (rowid : Int) : Option Notification :=
  match parsed with
  | some plist_value => parse_notification_from_plist plist_value rowid
  | none => none

/-- A row of the `record` table: ROWID and the parse result of its data blob. -/
abbrev Record := Int × Option Value

/-- The `record` table, as the ROWID-ordered list of its rows. -/
abbrev Store := List Record

/-- Well-formedness of a store: ROWIDs strictly increase along the list
(ROWIDs are unique, and the daemon's queries return rows in ascending
ROWID order). -/
def Store.WF (s : Store) : Prop := List.Pairwise (fun a b => a.1 < b.1) s

/-- Model of the query `SELECT MAX(ROWID) FROM record`
(src/daemon.rs lines 85-89): `none` on an empty table. -/
def max_rowid : Store → Option Int
  | [] => none
  | r :: rs =>
    match max_rowid rs with
    | none => some r.1
    | some m => some (max r.1 m)

/-- Model of the query
`SELECT ROWID, data FROM record WHERE ROWID > ? ORDER BY ROWID ASC`
(src/daemon.rs lines 125-133). -/
def rows_after (s : Store) (last_rowid : Int) : Store :=
  s.filter (fun r => decide (last_rowid < r.1))

/-- Result of one run of the row-processing loop of `query_new_notifications`. -/
structure ProcessResult where
  new_max_rowid : Int
  emitted : List Notification
  skipped : List Int
deriving DecidableEq, Repr

/-- Embedding of the `for (rowid, bytes) in &new_records` loop of
`query_new_notifications` (src/daemon.rs lines 138-190).  The loop's
mutable `actual_max_rowid` starts at `last_rowid` and is overwritten with
the current ROWID on every iteration (before the decode attempt), so after
processing a row the remaining iterations run with accumulator `r.1`; a row
that decodes is emitted, one that does not is skipped. -/
def process_records (last_rowid : Int) : List Record → ProcessResult
  | [] => ⟨last_rowid, [], []⟩
  | r :: rs =>
    let rest := process_records r.1 rs
    match plist_decode r.2 r.1 with
    | some n => ⟨rest.new_max_rowid, n :: rest.emitted, rest.skipped⟩
    | none => ⟨rest.new_max_rowid, rest.emitted, r.1 :: rest.skipped⟩

/-- Embedding of `query_new_notifications` (src/daemon.rs lines 122-191):
run the range query, process every returned row, return the last ROWID
actually retrieved (or `last_rowid` when the query returned nothing). -/
def query_new_notifications (s : Store) (last_rowid : Int) : ProcessResult :=
  process_records last_rowid (rows_after s last_rowid)

/-- The daemon's in-memory cursor: the `last_rowid` field of
`NotificationDaemon` (src/daemon.rs line 15). -/
structure Cursor where
  last_rowid : Option Int
deriving DecidableEq, Repr

/-- Outcome of one poll: the cursor afterwards plus what the poll emitted
and skipped. -/
structure PollResult where
  cursor : Cursor
  emitted : List Notification
  skipped : List Int
deriving DecidableEq, Repr

/-- Embedding of `check_for_new_notifications` (src/daemon.rs lines 81-119).
The source's two consecutive `if`s compare `max_id` against the same
immutable local `last_rowid`, so at most one fires and the `else if` form
is an exact refactor. -/
def check_for_new_notifications (s : Store) (c : Cursor) : PollResult :=
  match max_rowid s with
  | none => ⟨c, [], []⟩
  | some max_id =>
    match c.last_rowid with
    | none => ⟨⟨some max_id⟩, [], []⟩
    | some last_rowid =>
      if max_id > last_rowid then
        let r := query_new_notifications s last_rowid
        ⟨⟨some r.new_max_rowid⟩, r.emitted, r.skipped⟩
      else if max_id < last_rowid then
        let r := query_new_notifications s max_id
        ⟨⟨some r.new_max_rowid⟩, r.emitted, r.skipped⟩
      else ⟨c, [], []⟩

/-- A JSON document (the shape serde_json produces for a `Notification`). -/
inductive Json where
  | null
  | num (n : Int)
  | str (s : String)
  | obj (fields : List (String × Json))

/-- The serde serialization of `Notification` (derive `Serialize` on the
struct in src/database.rs: fields in declaration order, `Option` fields
become `null` when absent). -/
def notification_to_json (n : Notification) : Json :=
  Json.obj
    [ ("id", Json.num n.id)
    , ("title", Json.str n.title)
    , ("subtitle", match n.subtitle with | some s => Json.str s | none => Json.null)
    , ("body", Json.str n.body)
    , ("date", Json.num n.date)
    , ("bundle_id", match n.bundle_id with | some s => Json.str s | none => Json.null) ]

/-- An HTTP request as configured through the reqwest builder calls the
source makes.  `timeout_secs` is the per-request timeout configured on the
client or the request, if any. -/
structure HttpRequest where
  method : String
  url : String
  body : Json
  timeout_secs : Option Nat

/-- Embedding of `forward_to_webhook` (src/daemon.rs lines 257-266): a fresh
`Client::new()` (reqwest's default configuration, which sets no request
timeout), then `post(url).json(notification).send()`.  No call in the
repository configures a timeout, so `timeout_secs` is `none`. -/
def forward_to_webhook (webhook_url : String) (n : Notification) : HttpRequest :=
  { method := "POST", url := webhook_url, body := notification_to_json n
    timeout_secs := none }

/-- What `send()` produced for one POST: reqwest returns `Ok(response)` for
any HTTP response that arrives — whatever its status code — and `Err` only
for transport problems (connection failure, timeout, redirect trouble). -/
inductive SendResult where
  | response (status : Nat)
  | fail (error_msg : String)

/-- The line the source logs for one delivery attempt
(src/daemon.rs lines 168-172): the `if let Err(e)` branch fires exactly when
`send()` returned `Err`; an `Ok` response is logged as forwarded without the
status code ever being inspected. -/
def delivery_log_line : SendResult → String
  | .fail e => "Failed to forward notification: " ++ e
  | .response _ => "Notification forwarded to webhook"

/-- Result of one run of the row-processing loop in the webhook build. -/
structure WebhookProcessResult where
  new_max_rowid : Int
  requests : List HttpRequest
  log : List String

/-- Embedding of the `query_new_notifications` loop in the webhook build
(src/daemon.rs lines 142-191 with feature `webhook` and a configured URL):
identical to `process_records`, except that each decoded notification is
additionally POSTed once to the webhook and the outcome of that single
`send()` — supplied here by the oracle `outcome` — decides which line is
logged.  The outcome is used for nothing else. -/
def process_records_webhook (url : String) (outcome : Notification → SendResult) :
    Int → List Record → WebhookProcessResult
  | last_rowid, [] => ⟨last_rowid, [], []⟩
  | _, r :: rs =>
    match plist_decode r.2 r.1 with
    | some n =>
      let rest := process_records_webhook url outcome r.1 rs
      ⟨rest.new_max_rowid,
       forward_to_webhook url n :: rest.requests,
       delivery_log_line (outcome n) :: rest.log⟩
    | none => process_records_webhook url outcome r.1 rs

/-! ## Characterization lemmas -/

/-- Mapping ROWIDs out of a record list commutes with taking the defaulted
last element. -/
theorem map_fst_getLastD (l : List Record) (x : Record) :
    (List.map Prod.fst l).getLastD x.1 = (l.getLastD x).1 := by
  induction l generalizing x with
  | nil => rfl
  | cons y ys ih => rw [List.map_cons, List.getLastD_cons, List.getLastD_cons, ih]

/-- Closed form of the row-processing loop: the final `actual_max_rowid` is
the ROWID of the last row retrieved (or the initial value when no row was),
the emitted notifications are the decodable rows in order, and the skipped
ROWIDs are the undecodable ones. -/
theorem process_records_eq (last_rowid : Int) (l : List Record) :
    process_records last_rowid l =
      ⟨(l.map Prod.fst).getLastD last_rowid,
       l.filterMap (fun r => plist_decode r.2 r.1),
       (l.filter (fun r => (plist_decode r.2 r.1).isNone)).map Prod.fst⟩ := by
  induction l generalizing last_rowid with
  | nil => rfl
  | cons r rs ih =>
    cases h : plist_decode r.2 r.1 with
    | none =>
      simp [process_records, ih, h, List.getLastD_cons]
      rw [← List.getLastD_eq_getLast?, ← List.getLastD_eq_getLast?,
        List.getLastD_cons, map_fst_getLastD]
    | some n =>
      simp [process_records, ih, h, List.getLastD_cons]
      rw [← List.getLastD_eq_getLast?, ← List.getLastD_eq_getLast?,
        List.getLastD_cons, map_fst_getLastD]

/-- An empty MAX result happens only on the empty table. -/
theorem max_rowid_eq_none (s : Store) : max_rowid s = none ↔ s = [] := by
  cases s with
  | nil => simp [max_rowid]
  | cons r rs =>
    cases h : max_rowid rs <;> simp [max_rowid, h]

/-- Every ROWID in the table is at most the MAX query's result. -/
theorem max_rowid_le (s : Store) (M : Int) (h : max_rowid s = some M) :
    ∀ r ∈ s, r.1 ≤ M := by
  induction s generalizing M with
  | nil => intro r hr; exact absurd hr (List.not_mem_nil r)
  | cons r rs ih =>
    intro x hx
    rw [max_rowid] at h
    cases hm : max_rowid rs with
    | none =>
      rw [hm] at h
      injection h with h'
      have hrs : rs = [] := (max_rowid_eq_none rs).mp hm
      subst hrs
      rcases List.mem_cons.mp hx with rfl | hx
      · exact le_of_eq h'
      · exact absurd hx (List.not_mem_nil x)
    | some m =>
      rw [hm] at h
      injection h with h'
      rcases List.mem_cons.mp hx with rfl | hx
      · exact le_trans (le_max_left x.1 m) (le_of_eq h')
      · exact le_trans (le_trans (ih m hm x hx) (le_max_right r.1 m)) (le_of_eq h')

/-- The MAX query's result is the ROWID of some row of the table. -/
theorem max_rowid_mem (s : Store) (M : Int) (h : max_rowid s = some M) :
    ∃ r ∈ s, r.1 = M := by
  induction s generalizing M with
  | nil => simp [max_rowid] at h
  | cons r rs ih =>
    rw [max_rowid] at h
    cases hm : max_rowid rs with
    | none =>
      rw [hm] at h
      injection h with h'
      exact ⟨r, List.mem_cons_self r rs, h'⟩
    | some m =>
      rw [hm] at h
      injection h with h'
      rcases le_total m r.1 with hle | hle
      · refine ⟨r, List.mem_cons_self r rs, ?_⟩
        rw [← h']
        exact (max_eq_left hle).symm
      · obtain ⟨x, hx, hxm⟩ := ih m hm
        refine ⟨x, List.mem_cons_of_mem r hx, ?_⟩
        rw [hxm, ← h']
        exact (max_eq_right hle).symm

/-- The range query strictly above the current maximum returns nothing. -/
theorem rows_after_max_eq_nil (s : Store) (M : Int) (h : max_rowid s = some M) :
    rows_after s M = [] := by
  apply List.filter_eq_nil_iff.mpr
  intro r hr
  simpa using not_lt.mpr (max_rowid_le s M h r hr)

/-- In a strictly ascending integer list, the initial accumulator is at most
the defaulted last element, provided it is below every element. -/
theorem le_getLastD_self : ∀ (l : List Int) (d : Int),
    (∀ b ∈ l, d ≤ b) → l.Pairwise (fun x y => x < y) → d ≤ l.getLastD d
  | [], d, _, _ => le_refl d
  | x :: xs, d, hall, hs => by
    rw [List.getLastD_cons]
    exact le_trans (hall x (List.mem_cons_self x xs))
      (le_getLastD_self xs x
        (fun b hb => le_of_lt (List.rel_of_pairwise_cons hs hb)) hs.of_cons)

/-- In a strictly ascending integer list, every member is at most the
defaulted last element. -/
theorem mem_le_getLastD : ∀ (l : List Int) (a d : Int),
    l.Pairwise (fun x y => x < y) → a ∈ l → a ≤ l.getLastD d
  | [], a, _, _, ha => absurd ha (List.not_mem_nil a)
  | x :: xs, a, d, hs, ha => by
    rw [List.getLastD_cons]
    rcases List.mem_cons.mp ha with rfl | h
    · exact le_getLastD_self xs a
        (fun b hb => le_of_lt (List.rel_of_pairwise_cons hs hb)) hs.of_cons
    · exact mem_le_getLastD xs a x hs.of_cons h

/-- The ROWIDs returned by the range query are strictly ascending whenever
the table is well formed. -/
theorem rows_after_ids_sorted (s : Store) (w : Int) (hwf : Store.WF s) :
    ((rows_after s w).map Prod.fst).Pairwise (fun a b => a < b) :=
  (List.Pairwise.filter _ hwf).map Prod.fst (fun _ _ h => h)

/-! ## Claim theorems -/

/-- C1 (shrink resync): for every cursor state with watermark `some w` and
every store whose current maximum ROWID `M` satisfies `M < w`, one poll
emits zero notifications and sets the watermark to `M`; the row that caused
the regression is not redelivered. -/
theorem shrink_resync (s : Store) (w M : Int)
    (hM : max_rowid s = some M) (hlt : M < w) :
    check_for_new_notifications s ⟨some w⟩ = ⟨⟨some M⟩, [], []⟩ := by
  have hq : query_new_notifications s M = ⟨M, [], []⟩ := by
    simp only [query_new_notifications, rows_after_max_eq_nil s M hM]
    rfl
  simp only [check_for_new_notifications, hM]
  rw [if_neg (by omega : ¬ M > w), if_pos hlt, hq]

/-- Witness for C1: watermark 5, store whose only row has ROWID 3. -/
theorem shrink_resync_witness :
    check_for_new_notifications [((3 : Int), (none : Option Value))] ⟨some 5⟩
      = ⟨⟨some 3⟩, [], []⟩ :=
  shrink_resync [(3, none)] 5 3 rfl (by decide)

/-- C3 (first-poll suppression): for every non-empty store with maximum
ROWID `M`, a poll performed while the watermark is `none` sets the
watermark to `some M` and emits zero notifications. -/
theorem first_poll_suppression (s : Store) (M : Int)
    (hM : max_rowid s = some M) :
    check_for_new_notifications s ⟨none⟩ = ⟨⟨some M⟩, [], []⟩ := by
  simp [check_for_new_notifications, hM]

/-- Witness for C3: one-row store, fresh cursor. -/
theorem first_poll_suppression_witness :
    check_for_new_notifications [((2 : Int), (none : Option Value))] ⟨none⟩
      = ⟨⟨some 2⟩, [], []⟩ :=
  first_poll_suppression [(2, none)] 2 rfl

/-- C9 (empty-range poll leaves the watermark unchanged): whenever the
range query returns no rows, the row-processing step returns the watermark
it was passed and emits nothing. -/
theorem empty_range_keeps_watermark (s : Store) (w : Int)
    (h : rows_after s w = []) :
    query_new_notifications s w = ⟨w, [], []⟩ := by
  simp only [query_new_notifications, h]
  rfl

/-- Witness for C9: the range query above ROWID 5 on a store whose only row
is 5 returns nothing. -/
theorem empty_range_keeps_watermark_witness :
    query_new_notifications [((5 : Int), (none : Option Value))] 5 = ⟨5, [], []⟩ :=
  empty_range_keeps_watermark [(5, none)] 5 rfl

/-- C10 (watermark initialization is permanent): once the watermark is
`some w`, one poll against any store leaves it `some` of some value —
no poll resets it to `none`. -/
theorem watermark_stays_some (s : Store) (w : Int) :
    ((check_for_new_notifications s ⟨some w⟩).cursor.last_rowid).isSome = true := by
  cases hm : max_rowid s with
  | none => simp [check_for_new_notifications, hm]
  | some max_id =>
    simp only [check_for_new_notifications, hm]
    by_cases h1 : max_id > w
    · simp [h1]
    · by_cases h2 : max_id < w
      · simp [h1, h2]
      · simp [h1, h2]

/-- C2 (growth detection): with watermark `some w` and store maximum
`M > w`, one poll processes exactly the rows returned by the range query
above `w` — the decodable ones are emitted, the rest are skipped — in
strictly ascending ROWID order, the query returns at least one row, and the
watermark advances to the ROWID of the last row actually returned by that
query (the answer of the range query itself, not the separately queried
`M`). -/
theorem growth_processes_rows_after (s : Store) (w M : Int) (hwf : Store.WF s)
    (hM : max_rowid s = some M) (hgt : w < M) :
    (check_for_new_notifications s ⟨some w⟩).emitted
        = (rows_after s w).filterMap (fun r => plist_decode r.2 r.1)
    ∧ (check_for_new_notifications s ⟨some w⟩).skipped
        = ((rows_after s w).filter (fun r => (plist_decode r.2 r.1).isNone)).map Prod.fst
    ∧ ((rows_after s w).map Prod.fst).Pairwise (fun a b => a < b)
    ∧ rows_after s w ≠ []
    ∧ (check_for_new_notifications s ⟨some w⟩).cursor.last_rowid
        = some (((rows_after s w).map Prod.fst).getLastD w) := by
  have hcheck : check_for_new_notifications s ⟨some w⟩ =
      ⟨⟨some (query_new_notifications s w).new_max_rowid⟩,
       (query_new_notifications s w).emitted,
       (query_new_notifications s w).skipped⟩ := by
    simp only [check_for_new_notifications, hM]
    rw [if_pos (by omega : M > w)]
  have hq : query_new_notifications s w =
      ⟨((rows_after s w).map Prod.fst).getLastD w,
       (rows_after s w).filterMap (fun r => plist_decode r.2 r.1),
       ((rows_after s w).filter (fun r => (plist_decode r.2 r.1).isNone)).map Prod.fst⟩ :=
    process_records_eq w (rows_after s w)
  have hne : rows_after s w ≠ [] := by
    obtain ⟨r, hr, hrM⟩ := max_rowid_mem s M hM
    have hmem : r ∈ rows_after s w :=
      List.mem_filter.mpr ⟨hr, by simp only [decide_eq_true_eq, hrM]; exact hgt⟩
    intro hnil
    rw [hnil] at hmem
    exact absurd hmem (List.not_mem_nil r)
  refine ⟨?_, ?_, rows_after_ids_sorted s w hwf, hne, ?_⟩ <;> rw [hcheck, hq]

/-- Witness for C2: watermark 0, store with rows 1 (decodable payload) and
2 (unparseable payload); the poll emits row 1's notification, skips row 2,
and advances the watermark to 2. -/
theorem growth_processes_rows_after_witness :
    (check_for_new_notifications
        [((1 : Int), some (Value.dictionary [])), (2, (none : Option Value))]
        ⟨some 0⟩).cursor.last_rowid = some 2
    ∧ (check_for_new_notifications
        [((1 : Int), some (Value.dictionary [])), (2, (none : Option Value))]
        ⟨some 0⟩).emitted
      = [{ id := 1, title := "", subtitle := none, body := "", date := 0,
           bundle_id := none }] := by
  have h := growth_processes_rows_after
    [(1, some (Value.dictionary [])), (2, none)] 0 2
    (by simp [Store.WF]) rfl (by decide)
  exact ⟨by rw [h.2.2.2.2]; rfl, by rw [h.1]; rfl⟩

/-- C6 (decode-failure isolation): in any run of the row-processing step on
a well-formed store, a returned row whose payload fails to decode is
skipped, every decodable row of the same run — in particular every later
one — is still emitted, and the returned watermark is at least the
undecodable row's ROWID. -/
theorem decode_failure_isolation (s : Store) (w : Int) (hwf : Store.WF s)
    (i : Int) (p : Option Value) (hmem : (i, p) ∈ rows_after s w)
    (hfail : plist_decode p i = none) :
    i ∈ (query_new_notifications s w).skipped
    ∧ (∀ (j : Int) (q : Option Value) (n : Notification),
        (j, q) ∈ rows_after s w → i < j → plist_decode q j = some n →
          n ∈ (query_new_notifications s w).emitted)
    ∧ i ≤ (query_new_notifications s w).new_max_rowid := by
  have hq : query_new_notifications s w =
      ⟨((rows_after s w).map Prod.fst).getLastD w,
       (rows_after s w).filterMap (fun r => plist_decode r.2 r.1),
       ((rows_after s w).filter (fun r => (plist_decode r.2 r.1).isNone)).map Prod.fst⟩ :=
    process_records_eq w (rows_after s w)
  refine ⟨?_, ?_, ?_⟩
  · rw [hq]
    exact List.mem_map.mpr
      ⟨(i, p), List.mem_filter.mpr ⟨hmem, by simp [hfail]⟩, rfl⟩
  · intro j q n hjq hij hdec
    rw [hq]
    exact List.mem_filterMap.mpr ⟨(j, q), hjq, hdec⟩
  · rw [hq]
    exact mem_le_getLastD _ i w (rows_after_ids_sorted s w hwf)
      (List.mem_map.mpr ⟨(i, p), hmem, rfl⟩)

/-- Witness for C6: watermark 0, row 1 undecodable, row 2 decodable; row 1
is skipped, row 2 is still emitted, and the watermark ends at 2 which is at
least 1. -/
theorem decode_failure_isolation_witness :
    (1 : Int) ∈ (query_new_notifications
        [((1 : Int), (none : Option Value)), (2, some (Value.dictionary []))] 0).skipped
    ∧ ({ id := 2, title := "", subtitle := none, body := "", date := 0,
         bundle_id := none } : Notification)
        ∈ (query_new_notifications
            [((1 : Int), (none : Option Value)), (2, some (Value.dictionary []))] 0).emitted
    ∧ (1 : Int) ≤ (query_new_notifications
        [((1 : Int), (none : Option Value)), (2, some (Value.dictionary []))] 0).new_max_rowid := by
  have hmem1 : ((1 : Int), (none : Option Value))
      ∈ rows_after [((1 : Int), (none : Option Value)), (2, some (Value.dictionary []))] 0 := by
    show ((1 : Int), (none : Option Value))
      ∈ [((1 : Int), (none : Option Value)), (2, some (Value.dictionary []))]
    exact List.mem_cons_self _ _
  have hmem2 : ((2 : Int), some (Value.dictionary []))
      ∈ rows_after [((1 : Int), (none : Option Value)), (2, some (Value.dictionary []))] 0 := by
    show ((2 : Int), some (Value.dictionary []))
      ∈ [((1 : Int), (none : Option Value)), (2, some (Value.dictionary []))]
    exact List.mem_cons_of_mem _ (List.mem_cons_self _ _)
  have h := decode_failure_isolation
    [(1, none), (2, some (Value.dictionary []))] 0 (by simp [Store.WF])
    1 none hmem1 rfl
  exact ⟨h.1, h.2.1 2 (some (Value.dictionary [])) _ hmem2 (by decide) rfl, h.2.2⟩

/-- Decoding a top-level dictionary always succeeds, whatever the
dictionary contains. -/
theorem parse_dict_isSome (d : List (String × Value)) (rid : Int) :
    (parse_notification_from_plist (Value.dictionary d) rid).isSome = true := by
  simp only [parse_notification_from_plist]
  split <;> rfl

/-- C4 (decode totality on dictionaries): decoding fails exactly when the
bytes do not parse as a binary plist (modelled by a `none` parse result) or
the parsed top-level value is not a dictionary; and a top-level dictionary
lacking the nested "req" dictionary decodes successfully with empty title,
empty body, and absent subtitle. -/
theorem decode_total_on_dictionaries :
    (∀ (parsed : Option Value) (rid : Int),
        plist_decode parsed rid = none
          ↔ parsed = none ∨ ∃ v, parsed = some v ∧ v.is_dictionary = false)
    ∧ ∀ (d : List (String × Value)) (rid : Int),
        lookupDict d "req" = none →
          ∃ n, plist_decode (some (Value.dictionary d)) rid = some n
            ∧ n.title = "" ∧ n.body = "" ∧ n.subtitle = none := by
  constructor
  · intro parsed rid
    cases parsed with
    | none => simp [plist_decode]
    | some v =>
      cases v with
      | dictionary d =>
        have h : parse_notification_from_plist (Value.dictionary d) rid ≠ none :=
          Option.isSome_iff_ne_none.mp (parse_dict_isSome d rid)
        simp [plist_decode, Value.is_dictionary, h]
      | string a => simp [plist_decode, parse_notification_from_plist, Value.is_dictionary]
      | real a => simp [plist_decode, parse_notification_from_plist, Value.is_dictionary]
      | integer a => simp [plist_decode, parse_notification_from_plist, Value.is_dictionary]
      | boolean a => simp [plist_decode, parse_notification_from_plist, Value.is_dictionary]
      | data a => simp [plist_decode, parse_notification_from_plist, Value.is_dictionary]
      | array a => simp [plist_decode, parse_notification_from_plist, Value.is_dictionary]
  · intro d rid hreq
    simp only [plist_decode, parse_notification_from_plist, hreq]
    exact ⟨_, rfl, rfl, rfl, rfl⟩

/-- Witness for C4: an unparseable blob fails to decode, and a dictionary
holding only an "app" entry (so no "req") decodes with the defaults. -/
theorem decode_total_on_dictionaries_witness :
    plist_decode (none : Option Value) 3 = none
    ∧ ∃ n, plist_decode (some (Value.dictionary [("app", Value.string "com.x")])) 3 = some n
        ∧ n.title = "" ∧ n.body = "" ∧ n.subtitle = none := by
  constructor
  · exact (decode_total_on_dictionaries.1 none 3).mpr (Or.inl rfl)
  · exact decode_total_on_dictionaries.2 [("app", Value.string "com.x")] 3 rfl

/-- Numeric plist values in the sense of the claim's wording, modelled from
the spec: both `Real` and `Integer` constructors carry a number. -/
def numeric_value_spec : Value → Option ℚ
  | .real r => some r
  | .integer n => some (n : ℚ)
  | _ => none

/-- C5 counterexample: a top-level dictionary whose "date" entry is the
numeric (integer-typed) value 5 decodes with date field 0, not 5 — the
source reads the entry through `as_real`, which rejects `Integer` values —
so the claim as stated fails at this input. -/
theorem date_integer_counterexample :
    numeric_value_spec (Value.integer 5) = some 5
    ∧ f64_as_i64 (5 : ℚ) = 5
    ∧ ∃ n, plist_decode (some (Value.dictionary [("date", Value.integer 5)])) 1 = some n
        ∧ n.date = 0 ∧ n.date ≠ f64_as_i64 (5 : ℚ) := by
  refine ⟨?_, by decide, ⟨_, rfl, rfl, by decide⟩⟩
  simp [numeric_value_spec]

/-- C5 (amended): for every successfully decoded payload, if the top-level
dictionary has a real-typed (floating-point) value `q` at key "date" then
the date field equals `q` truncated toward zero and saturated to the signed
64-bit range; if the key is absent or its value is not real-typed (in
particular when it is integer-typed) the date field is 0. -/
theorem date_extraction_real (d : List (String × Value)) (rid : Int) :
    (∀ q : ℚ, lookupDict d "date" = some (Value.real q) →
        ∃ n, plist_decode (some (Value.dictionary d)) rid = some n
          ∧ n.date = f64_as_i64 q)
    ∧ ((lookupDict d "date").bind Value.as_real = none →
        ∃ n, plist_decode (some (Value.dictionary d)) rid = some n ∧ n.date = 0) := by
  constructor
  · intro q hq
    simp only [plist_decode, parse_notification_from_plist, hq, Option.some_bind,
      Value.as_real]
    split
    · exact ⟨_, rfl, rfl⟩
    · exact ⟨_, rfl, rfl⟩
  · intro h
    simp only [plist_decode, parse_notification_from_plist, h]
    split
    · exact ⟨_, rfl, rfl⟩
    · exact ⟨_, rfl, rfl⟩

/-- Witness for C5 (amended): a real-typed date 5/2 truncates to 2; an
empty dictionary gives date 0. -/
theorem date_extraction_real_witness :
    (∃ n, plist_decode (some (Value.dictionary [("date", Value.real (mkRat 5 2))])) 7 = some n
        ∧ n.date = f64_as_i64 (mkRat 5 2))
    ∧ f64_as_i64 (mkRat 5 2) = 2
    ∧ ∃ n, plist_decode (some (Value.dictionary [])) 7 = some n ∧ n.date = 0 := by
  refine ⟨(date_extraction_real [("date", Value.real (mkRat 5 2))] 7).1 (mkRat 5 2) rfl,
    by decide, (date_extraction_real [] 7).2 rfl⟩

/-- C7 counterexample: the request built by `forward_to_webhook` carries no
request timeout at all — the source never configures one (reqwest's default
client has none; the only 5-second constant in the program is the polling
sleep) — so "a bounded request timeout fixed at 5 seconds" fails on any
concrete delivery. -/
theorem webhook_timeout_counterexample :
    (forward_to_webhook "http://localhost/hook"
        { id := 1, title := "t", subtitle := none, body := "b", date := 0,
          bundle_id := none }).timeout_secs = none
    ∧ (none : Option Nat) ≠ some 5 :=
  ⟨rfl, by decide⟩

/-- C7 (amended): every webhook delivery issues a single HTTP POST of the
JSON-serialized notification to the configured URL, with no request timeout
configured. -/
theorem webhook_single_post (url : String) (n : Notification) :
    forward_to_webhook url n
      = { method := "POST", url := url, body := notification_to_json n,
          timeout_secs := none } := rfl

/-- C8 counterexample: a delivery whose POST comes back with HTTP status
500 — a non-2xx response — is logged with the success line, identical to a
200 and different from the transport-failure line: the source never
inspects the response status, so a non-2xx response is not detected as a
failure. -/
theorem non2xx_logged_as_success :
    (process_records_webhook "http://localhost/hook"
        (fun _ => SendResult.response 500) 0
        [((1 : Int), some (Value.dictionary []))]).log
      = ["Notification forwarded to webhook"]
    ∧ delivery_log_line (SendResult.response 500)
        = delivery_log_line (SendResult.response 200)
    ∧ delivery_log_line (SendResult.response 500)
        ≠ delivery_log_line (SendResult.fail "connection refused") :=
  ⟨rfl, rfl, by decide⟩

/-- C8 (amended): for every run of the webhook row-processing loop, the
delivery outcome of each POST — success, transport failure, or any
response status — has no effect on the returned watermark, which equals
that of the non-webhook loop; each decoded notification is POSTed exactly
once with no retry, independently of the outcomes; every attempt is logged,
a transport failure (an `Err` from `send()`: timeout or network error) with
the failure line carrying the error, while a response is logged as
forwarded whatever its status. -/
theorem delivery_outcome_no_effect (url : String)
    (o1 o2 : Notification → SendResult) (last_rowid : Int) (l : List Record) :
    (process_records_webhook url o1 last_rowid l).new_max_rowid
        = (process_records last_rowid l).new_max_rowid
    ∧ (process_records_webhook url o1 last_rowid l).requests
        = (process_records last_rowid l).emitted.map (forward_to_webhook url)
    ∧ (process_records_webhook url o1 last_rowid l).requests
        = (process_records_webhook url o2 last_rowid l).requests
    ∧ (process_records_webhook url o1 last_rowid l).log
        = (process_records last_rowid l).emitted.map (fun n => delivery_log_line (o1 n))
    ∧ ∀ e, delivery_log_line (SendResult.fail e)
        = "Failed to forward notification: " ++ e := by
  induction l generalizing last_rowid with
  | nil => exact ⟨rfl, rfl, rfl, rfl, fun _ => rfl⟩
  | cons r rs ih =>
    obtain ⟨ih1, ih2, ih3, ih4, _⟩ := ih r.1
    cases h : plist_decode r.2 r.1 with
    | some n =>
      refine ⟨?_, ?_, ?_, ?_, fun _ => rfl⟩ <;>
        simp [process_records_webhook, process_records, h, ih1, ih2, ih4, ← ih3]
    | none =>
      refine ⟨?_, ?_, ?_, ?_, fun _ => rfl⟩ <;>
        simp [process_records_webhook, process_records, h, ih1, ih2, ih4, ← ih3]

end Blurt
